import Mathlib

/-!
Verification of the district-name reconciliation and derived-metric pipeline
of the dengue dashboard repository (app/build_map.py, app/main.py,
app/data_utils.py).

Strings are modelled as lists of Unicode code points (`List Nat`); pandas
scalar cells are modelled by `PFloat`, which distinguishes missing values
(NaN / pd.NA, both of which satisfy `isna`) from IEEE infinities and from
finite values (represented exactly as rationals).
-/

/-- A pandas scalar cell: missing (NaN/NA), plus or minus infinity, or a
finite value represented exactly as a rational. -/
inductive PFloat where
  | na : PFloat
  | inf : PFloat
  | ninf : PFloat
  | val : ℚ → PFloat
deriving DecidableEq, Repr

namespace PFloat

/-- Model of `pd.notna`: true for every value except NaN/NA.  Note that
`pd.notna(float("inf"))` is `True` in pandas. -/
def notna : PFloat → Bool
  | .na => false
  | _ => true

/-- Model of IEEE/numpy division as performed by `series_a / series_b`:
division by zero yields a signed infinity (or NaN for 0/0), and missing
operands propagate as missing. -/
def pdiv : PFloat → PFloat → PFloat
  | .na, _ => .na
  | _, .na => .na
  | .val a, .val b =>
      if b = 0 then (if 0 < a then .inf else if a < 0 then .ninf else .na)
      else .val (a / b)
  | .inf, .val b => if 0 ≤ b then .inf else .ninf
  | .ninf, .val b => if 0 ≤ b then .ninf else .inf
  | .val _, .inf => .val 0
  | .val _, .ninf => .val 0
  | .inf, .inf => .na
  | .inf, .ninf => .na
  | .ninf, .inf => .na
  | .ninf, .ninf => .na

/-- Multiplication by the positive constant `1e5`, as in `(...) * 1e5`. -/
def mul1e5 : PFloat → PFloat
  | .na => .na
  | .inf => .inf
  | .ninf => .ninf
  | .val q => .val (q * 100000)

/-- A cell holds a strictly positive number (infinity counts as positive). -/
def pos : PFloat → Bool
  | .val q => decide (0 < q)
  | .inf => true
  | _ => false

/-- Python truthiness of a float cell: `0.0` is falsy; NaN and the
infinities are truthy. -/
def truthy : PFloat → Bool
  | .val q => decide (q ≠ 0)
  | _ => true

end PFloat

/-! ### Python string model and the name normalizer `norm` -/

/-- A Python string, as its list of Unicode code points. -/
abbrev PyStr := List Nat

/-- Embed a Lean string literal as a `PyStr`. -/
def pyStr (s : String) : PyStr := s.toList.map Char.toNat

/-- ASCII lower-casing of one code point, as done by `str.lower` on the
inputs of interest. -/
def lowerC (c : Nat) : Nat := if 65 ≤ c ∧ c ≤ 90 then c + 32 else c

/-- Model of `str.lower`. -/
def pyLower (s : PyStr) : PyStr := s.map lowerC

/-- A code point is an upper-case ASCII letter. -/
def upperC (c : Nat) : Prop := 65 ≤ c ∧ c ≤ 90

instance (c : Nat) : Decidable (upperC c) := by unfold upperC; infer_instance

/-- The first list is an initial segment of the second. -/
def leadsWith : PyStr → PyStr → Bool
  | [], _ => true
  | _ :: _, [] => false
  | a :: as, b :: bs => a = b && leadsWith as bs

/-- Fuel-indexed scanner behind `removeSub`; the fuel only serves to make
the recursion structural and is irrelevant once it is at least the length
of the string being scanned. -/
def removeSubAux (pat : PyStr) : Nat → PyStr → PyStr
  | _, [] => []
  | 0, s => s
  | fuel + 1, c :: cs =>
      if leadsWith pat (c :: cs) ∧ pat ≠ [] then
        removeSubAux pat fuel (cs.drop (pat.length - 1))
      else
        c :: removeSubAux pat fuel cs

/-- Model of `str.replace(pat, "")` for a non-empty `pat`: single-pass,
left-to-right, non-overlapping removal of every occurrence, continuing
after each match. -/
def removeSub (pat : PyStr) (s : PyStr) : PyStr :=
  removeSubAux pat s.length s

/-- The pattern occurs as a contiguous substring (Python `pat in s`). -/
def containsSub (pat : PyStr) : PyStr → Bool
  | [] => leadsWith pat []
  | c :: cs => leadsWith pat (c :: cs) || containsSub pat cs

/-- The ASCII whitespace code points stripped by `str.strip`. -/
def isSpaceC (c : Nat) : Bool :=
  c = 32 || c = 9 || c = 10 || c = 13 || c = 11 || c = 12

/-- Model of `str.strip`: remove leading and trailing whitespace. -/
def pyStrip (s : PyStr) : PyStr :=
  ((s.dropWhile isSpaceC).reverse.dropWhile isSpaceC).reverse

/-- The code points of the word removed by the normalizer. -/
def districtPat : PyStr := pyStr "district"

/-- Model of `norm` (app/build_map.py, app/main.py, app/data_utils.py):
`(name or "").lower().replace("district", "").replace(" ", "").strip()`. -/
def norm (s : PyStr) : PyStr :=
  pyStrip (removeSub (pyStr " ") (removeSub districtPat (pyLower s)))

/-- Model of `norm` applied to a possibly-missing label: `(name or "")`
replaces `None` (and the empty string, which is falsy) by `""`. -/
def normOpt : Option PyStr → PyStr
  | none => []
  | some s => norm s

/-! ### Geo loader: `pick_geo_name` and `load_geojson` -/

/-- A GeoJSON property bag: string keys mapped to string values (the code
applies `str(...)` to whatever it reads, so values are modelled as
strings). -/
abbrev Props := List (PyStr × PyStr)

/-- The fixed, ordered preference list `DISTRICT_KEYS`. -/
def DISTRICT_KEYS : List PyStr :=
  [pyStr "shapeName", pyStr "NAME_2", pyStr "name",
   pyStr "district", pyStr "DISTRICT"]

/-- The message of the `KeyError` raised when no candidate key is present. -/
def noKeyMsg : PyStr := pyStr "No district-like key found in GeoJSON properties"

/-- Scan an ordered key list, returning the value of the first key present
in the property bag. -/
def pickFrom : List PyStr → Props → Except PyStr PyStr
  | [], _ => .error noKeyMsg
  | k :: ks, props =>
      match props.lookup k with
      | some v => .ok v
      | none => pickFrom ks props

/-- Model of `pick_geo_name` (app/build_map.py, app/main.py) and `pick`
(app/data_utils.py): try the candidate keys in order, raise `KeyError` if
none is present. -/
def pick_geo_name (props : Props) : Except PyStr PyStr :=
  pickFrom DISTRICT_KEYS props

/-- A geo feature: a property bag plus opaque geometry. -/
structure Feature (γ : Type) where
  props : Props
  geometry : γ
deriving DecidableEq, Repr

/-- Replace (or insert) a key in a property bag, modelling Python dict
assignment `props[k] = v` up to key order, which the code never relies
on. -/
def setKey (props : Props) (k v : PyStr) : Props :=
  (k, v) :: props.filter (fun kv => kv.1 ≠ k)

/-- The property-bag update performed per feature by `load_geojson`:
`props["_district_norm"] = norm(label); props["district"] = label`. -/
def updateFeat {γ : Type} (f : Feature γ) (label : PyStr) : Feature γ :=
  { f with props := setKey (setKey f.props (pyStr "_district_norm") (norm label))
                           (pyStr "district") label }

/-- Error-propagating map: the model of a Python `for` loop whose body may
raise; the first raise aborts the whole traversal. -/
def mapE {α β : Type} (f : α → Except PyStr β) : List α → Except PyStr (List β)
  | [] => .ok []
  | a :: as =>
      match f a with
      | .error e => .error e
      | .ok b =>
          match mapE f as with
          | .error e => .error e
          | .ok bs => .ok (b :: bs)

/-- Model of `load_geojson` (app/build_map.py, app/main.py): for every
feature pick a label, attach `_district_norm` and overwrite `district`;
a `KeyError` on any feature aborts the whole load. -/
def load_geojson {γ : Type} (feats : List (Feature γ)) :
    Except PyStr (List (Feature γ)) :=
  mapE (fun f => (pick_geo_name f.props).map (updateFeat f)) feats

/-! ### Case loader: `load_all` / `load_month` -/

/-- One CSV row after the `pd.to_numeric(..., errors="coerce")` coercion of
`year` and `month` (`none` models `pd.NA` from an unparsable cell); the
`incidence` field is `PFloat.na` when the column is absent or the cell is
blank. -/
structure Row where
  year : Option Int
  month : Option Int
  district : PyStr
  cases : PFloat
  population : PFloat
  incidence : PFloat
deriving DecidableEq, Repr

/-- The per-row effect of
`df.loc[need, "incidence_per_100k"] = (df.loc[need, "cases"] / df.loc[need, "population"]) * 1e5`
with `need = df["incidence_per_100k"].isna()`: rows whose incidence is
present are left untouched. -/
def computeIncidence (r : Row) : Row :=
  if r.incidence.notna then r
  else { r with incidence := (r.cases.pdiv r.population).mul1e5 }

/-- Model of `load_all` (app/main.py): derive incidence for the rows that
miss it; every other field is unchanged. -/
def load_all (rows : List Row) : List Row :=
  rows.map computeIncidence

/-- The month filter `(df["year"] == int(year)) & (df["month"] == int(month))`:
a row whose coerced year or month is `pd.NA` compares as not-equal and is
excluded. -/
def monthSlice (rows : List Row) (y m : Int) : List Row :=
  rows.filter (fun r => r.year = some y ∧ r.month = some m)

/-- Model of `load_month` (app/build_map.py): derive incidence over the
whole table, then keep the requested month. -/
def load_month (rows : List Row) (y m : Int) : List Row :=
  monthSlice (load_all rows) y m

/-! ### Month merger: `attach_static_metrics` -/

/-- The `ValueError` message raised by `to_dict(orient="index")` on a
non-unique index (pandas 0.24+; this code needs pandas 1.0+ for `pd.NA`). -/
def uniqueIdxMsg : PyStr := pyStr "DataFrame index must be unique for orient='index'."

/-- A key occurs twice in the list (the month slice's `district_norm`
index is non-unique). -/
def hasDupKeys : List PyStr → Bool
  | [] => false
  | k :: ks => ks.contains k || hasDupKeys ks

/-- The row the `metrics` dict of `mdf.set_index("district_norm")[...]
.to_dict("index")` holds for a key.  The dict is only ever built when the
index is unique (otherwise `to_dict` raises, see `attach_static_metrics`),
so at most one row of the slice carries the key and the lookup is
unambiguous. -/
def metricsFor (mdf : List Row) (k : PyStr) : Option Row :=
  mdf.find? (fun (r : Row) => norm r.district = k)

/-- One merged per-district record handed to the renderer (the property
dict built per feature by `attach_static_metrics` and by the loop in
`build_map.main`); a `none` field is Python `None`, the explicit "no
data" marker. -/
structure MergedView (γ : Type) where
  districtNorm : PyStr
  district : PyStr
  incidence : Option PFloat
  cases : Option PFloat
  population : Option PFloat
  geometry : γ
deriving DecidableEq, Repr

/-- Keep a cell only when it is present and not missing, as in
`float(x) if x is not None and pd.notna(x) else None`. -/
def keepCell : Option PFloat → Option PFloat
  | none => none
  | some c => if c.notna then some c else none

/-- The merged record for one feature: look its normalized key up in the
month slice and copy the three metric cells, `None` when absent or
missing. -/
def mergeOne {γ : Type} (mdf : List Row) (f : Feature γ) : MergedView γ :=
  let k := (f.props.lookup (pyStr "_district_norm")).getD []
  let v := metricsFor mdf k
  { districtNorm := k
    district := (f.props.lookup (pyStr "district")).getD []
    incidence := keepCell (v.map Row.incidence)
    cases := keepCell (v.map Row.cases)
    population := keepCell (v.map Row.population)
    geometry := f.geometry }

/-- Model of `attach_static_metrics` (app/main.py) and of the merge loop in
`build_map.main`.  Building the metrics dict with
`mdf.set_index("district_norm")[...].to_dict("index")` raises `ValueError`
when the slice's normalized keys are not unique; otherwise the merge
yields one output record per input feature, in input order. -/
def attach_static_metrics {γ : Type} (feats : List (Feature γ)) (mdf : List Row) :
    Except PyStr (List (MergedView γ)) :=
  if hasDupKeys (mdf.map (fun (r : Row) => norm r.district)) then .error uniqueIdxMsg
  else .ok (feats.map (mergeOne mdf))

/-- The whole per-month pipeline: load the case table, slice the month,
merge onto the features. -/
def mergeMonth {γ : Type} (feats : List (Feature γ)) (rows : List Row) (y m : Int) :
    Except PyStr (List (MergedView γ)) :=
  attach_static_metrics feats (load_month rows y m)

/-! ### Color scale selector -/

/-- Sorting comparison used to model pandas quantiles; missing values never
reach it (they are dropped first). -/
def pleB : PFloat → PFloat → Bool
  | .na, _ => true
  | _, .na => false
  | .ninf, _ => true
  | _, .ninf => false
  | .val a, .val b => decide (a ≤ b)
  | .val _, .inf => true
  | .inf, .val _ => false
  | .inf, .inf => true

/-- Insertion into a sorted list. -/
def insertP (x : PFloat) : List PFloat → List PFloat
  | [] => [x]
  | y :: ys => if pleB x y then x :: y :: ys else y :: insertP x ys

/-- Insertion sort, ascending. -/
def sortP (l : List PFloat) : List PFloat :=
  l.foldr insertP []

/-- Linear interpolation between two sorted cells, as numpy does inside
`quantile`; the `lo = hi` case (an exact index) returns the cell itself. -/
def interpP (lo hi : PFloat) (frac : ℚ) : PFloat :=
  if lo = hi then lo
  else
    match lo, hi with
    | .val a, .val b => .val (a + (b - a) * frac)
    | _, .inf => .inf
    | .ninf, _ => .ninf
    | _, _ => .na

/-- Model of `Series.quantile(0.95)` with the default linear interpolation:
drop missing values, sort, interpolate at position `(n-1) * 19/20`; the
quantile of an all-missing series is NaN. -/
def quantile95 (l : List PFloat) : PFloat :=
  let xs := sortP (l.filter PFloat.notna)
  match xs with
  | [] => .na
  | _ =>
      let n := xs.length
      let lo := ((n - 1) * 19) / 20
      let hi := ((n - 1) * 19 + 19) / 20
      let frac : ℚ := (((n - 1) * 19) % 20 : Nat) / 20
      interpP (xs.getD lo .na) (xs.getD hi .na) frac

/-- Model of `vmax_inc` / `vmax_cases` (app/main.py):
`float(col.dropna().quantile(0.95)) if col.notna().any() else 1.0`. -/
def vmaxMetric (vals : List PFloat) : PFloat :=
  if (vals.filter PFloat.notna).isEmpty then .val 1 else quantile95 vals

/-- Model of the computed part of `vmax` in `build_map.main`:
`mdf["incidence_per_100k"].quantile(0.95) if not mdf.empty else 1.0`;
note the guard tests row emptiness, not value validity. -/
def buildMapComputedVmax (mdf : List Row) : PFloat :=
  if mdf.isEmpty then .val 1 else quantile95 (mdf.map Row.incidence)

/-- Model of `vmax = args.vmax or (...)` in `build_map.main`: Python `or`
falls through on a falsy left operand, and the float `0.0` is falsy. -/
def buildMapVmax (override : Option PFloat) (mdf : List Row) : PFloat :=
  match override with
  | none => buildMapComputedVmax mdf
  | some v => if v.truthy then v else buildMapComputedVmax mdf

deriving instance DecidableEq for Except

/-! ### Helper lemmas about the string scanner -/

theorem removeSubAux_stable (pat : PyStr) :
    ∀ (fuel fuel' : Nat) (s : PyStr), s.length ≤ fuel → s.length ≤ fuel' →
      removeSubAux pat fuel s = removeSubAux pat fuel' s := by
  intro fuel
  induction fuel with
  | zero =>
      intro fuel' s hs _
      cases s with
      | nil => cases fuel' <;> rfl
      | cons c cs => simp at hs
  | succ f ih =>
      intro fuel' s hs hs'
      cases s with
      | nil => cases fuel' <;> rfl
      | cons c cs =>
          cases fuel' with
          | zero => simp at hs'
          | succ f' =>
              simp only [List.length_cons] at hs hs'
              simp only [removeSubAux]
              split
              · exact ih f' _ (by simp only [List.length_drop]; omega)
                  (by simp only [List.length_drop]; omega)
              · rw [ih f' cs (by omega) (by omega)]

theorem removeSub_cons (pat : PyStr) (c : Nat) (cs : PyStr) :
    removeSub pat (c :: cs) =
      if leadsWith pat (c :: cs) ∧ pat ≠ [] then removeSub pat (cs.drop (pat.length - 1))
      else c :: removeSub pat cs := by
  unfold removeSub
  simp only [List.length_cons, removeSubAux]
  split
  · exact removeSubAux_stable pat _ _ _ (by simp only [List.length_drop]; omega) (le_refl _)
  · rfl

theorem mem_removeSubAux {a : Nat} (pat : PyStr) :
    ∀ (fuel : Nat) (s : PyStr), a ∈ removeSubAux pat fuel s → a ∈ s := by
  intro fuel
  induction fuel with
  | zero =>
      intro s h
      cases s with
      | nil => simp [removeSubAux] at h
      | cons c cs => simpa [removeSubAux] using h
  | succ f ih =>
      intro s h
      cases s with
      | nil => simp [removeSubAux] at h
      | cons c cs =>
          simp only [removeSubAux] at h
          split at h
          · exact List.mem_cons_of_mem _ (List.drop_subset _ _ (ih _ h))
          · rcases List.mem_cons.mp h with h | h
            · exact h ▸ List.mem_cons_self _ _
            · exact List.mem_cons_of_mem _ (ih _ h)

theorem mem_removeSub {a : Nat} {pat s : PyStr} (h : a ∈ removeSub pat s) : a ∈ s :=
  mem_removeSubAux pat _ s h

theorem removeSub_eq_self {pat : PyStr} :
    ∀ {s : PyStr}, containsSub pat s = false → removeSub pat s = s := by
  intro s
  induction s with
  | nil => intro _; rfl
  | cons c cs ih =>
      intro h
      simp only [containsSub, Bool.or_eq_false_iff] at h
      rw [removeSub_cons, if_neg (by simp [h.1]), ih h.2]

theorem removeSub_single_eq_filter (a : Nat) :
    ∀ s : PyStr, removeSub [a] s = s.filter (fun c => c != a) := by
  intro s
  induction s with
  | nil => rfl
  | cons c cs ih =>
      rw [removeSub_cons, List.filter_cons]
      by_cases hac : a = c
      · subst hac
        rw [if_pos (by simp [leadsWith])]
        simpa using ih
      · rw [if_neg (by simp [leadsWith]; omega)]
        have hcne : (c != a) = true := by simp; omega
        rw [hcne, ih]
        simp

theorem not_mem_removeSub_single (a : Nat) (s : PyStr) : a ∉ removeSub [a] s := by
  rw [removeSub_single_eq_filter]
  intro h
  have := (List.mem_filter.mp h).2
  simp at this

theorem containsSub_single_eq_false {a : Nat} :
    ∀ {s : PyStr}, a ∉ s → containsSub [a] s = false := by
  intro s
  induction s with
  | nil => intro _; rfl
  | cons c cs ih =>
      intro h
      simp only [List.mem_cons, not_or] at h
      simp only [containsSub, leadsWith, Bool.or_eq_false_iff]
      exact ⟨by simp [h.1], ih h.2⟩

/-! ### Helper lemmas about strip and lower -/

theorem mem_pyStrip {a : Nat} {s : PyStr} (h : a ∈ pyStrip s) : a ∈ s := by
  unfold pyStrip at h
  have h1 := List.mem_reverse.mp h
  have h2 := (List.dropWhile_sublist _).subset h1
  have h3 := List.mem_reverse.mp h2
  exact (List.dropWhile_sublist _).subset h3

theorem dropWhile_eq_self_of_isPre {p : Nat → Bool} {l t : PyStr}
    (hl : l.dropWhile p = l) (ht : t <+: l) : t.dropWhile p = t := by
  cases t with
  | nil => rfl
  | cons c cs =>
      cases l with
      | nil => simp at ht
      | cons d ds =>
          have hcd : c = d := (List.cons_prefix_cons.mp ht).1
          have hpd : p d = false := by
            by_contra hp
            rw [List.dropWhile_cons, if_pos (by simpa using hp)] at hl
            have hlen := congrArg List.length hl
            have hle := (List.dropWhile_sublist (l := ds) p).length_le
            simp only [List.length_cons] at hlen
            omega
          rw [List.dropWhile_cons, hcd, hpd]
          simp

theorem pyStrip_idempotent (s : PyStr) : pyStrip (pyStrip s) = pyStrip s := by
  have hA : (pyStrip s).reverse.dropWhile isSpaceC = (pyStrip s).reverse := by
    unfold pyStrip
    rw [List.reverse_reverse]
    exact List.dropWhile_idempotent _ _
  have hB : (pyStrip s).dropWhile isSpaceC = pyStrip s := by
    apply dropWhile_eq_self_of_isPre (l := s.dropWhile isSpaceC)
    · exact List.dropWhile_idempotent _ _
    · unfold pyStrip
      have hsuf := List.dropWhile_suffix (l := (s.dropWhile isSpaceC).reverse) isSpaceC
      have := List.reverse_prefix.mpr hsuf
      simpa using this
  show ((((pyStrip s).dropWhile isSpaceC).reverse).dropWhile isSpaceC).reverse = pyStrip s
  rw [hB, hA, List.reverse_reverse]

theorem lowerC_not_upper (c : Nat) : ¬ upperC (lowerC c) := by
  unfold lowerC upperC
  split <;> omega

theorem mem_pyLower_not_upper {a : Nat} {s : PyStr} (h : a ∈ pyLower s) : ¬ upperC a := by
  rcases List.mem_map.mp h with ⟨b, _, rfl⟩
  exact lowerC_not_upper b

theorem pyLower_eq_self {s : PyStr} (h : ∀ c ∈ s, ¬ upperC c) : pyLower s = s := by
  induction s with
  | nil => rfl
  | cons c cs ih =>
      show lowerC c :: pyLower cs = c :: cs
      rw [ih (fun b hb => h b (List.mem_cons_of_mem _ hb))]
      have hc := h c (List.mem_cons_self _ _)
      unfold lowerC
      rw [if_neg (by unfold upperC at hc; exact hc)]

/-! ### Helper lemmas about the geo loader -/

theorem pickFrom_error_of_none :
    ∀ (keys : List PyStr) (props : Props), (∀ k ∈ keys, props.lookup k = none) →
      pickFrom keys props = .error noKeyMsg := by
  intro keys
  induction keys with
  | nil => intro props _; rfl
  | cons k ks ih =>
      intro props h
      have hk : props.lookup k = none := h k (List.mem_cons_self _ _)
      simp only [pickFrom, hk]
      exact ih props (fun k' hk' => h k' (List.mem_cons_of_mem _ hk'))

theorem pickFrom_error_msg :
    ∀ (keys : List PyStr) (props : Props) (e : PyStr),
      pickFrom keys props = .error e → e = noKeyMsg := by
  intro keys
  induction keys with
  | nil =>
      intro props e h
      simpa [pickFrom] using h.symm
  | cons k ks ih =>
      intro props e h
      simp only [pickFrom] at h
      cases hk : props.lookup k with
      | some v => rw [hk] at h; cases h
      | none => rw [hk] at h; exact ih props e h

theorem pickFrom_first :
    ∀ (keys : List PyStr) (props : Props) (i : Nat) (hi : i < keys.length) (v : PyStr),
      (∀ (j : Nat) (hj : j < i), props.lookup (keys.get ⟨j, Nat.lt_trans hj hi⟩) = none) →
      props.lookup (keys.get ⟨i, hi⟩) = some v →
      pickFrom keys props = .ok v := by
  intro keys
  induction keys with
  | nil => intro props i hi; cases hi
  | cons k ks ih =>
      intro props i hi v hbefore hv
      cases i with
      | zero =>
          simp only [List.get] at hv
          simp only [pickFrom, hv]
      | succ i' =>
          have hk : props.lookup k = none := hbefore 0 (Nat.succ_pos _)
          simp only [pickFrom, hk]
          exact ih props i' (Nat.lt_of_succ_lt_succ hi) v
            (fun j hj => hbefore (j + 1) (Nat.succ_lt_succ hj)) hv

theorem load_geojson_cons_err {γ : Type} {a : Feature γ} {as : List (Feature γ)}
    {e : PyStr} (h : pick_geo_name a.props = .error e) :
    load_geojson (a :: as) = .error e := by
  show mapE _ (a :: as) = _
  simp only [mapE, h, Except.map]

theorem load_geojson_cons_ok_err {γ : Type} {a : Feature γ} {as : List (Feature γ)}
    {lab e : PyStr} (h1 : pick_geo_name a.props = .ok lab)
    (h2 : load_geojson as = .error e) :
    load_geojson (a :: as) = .error e := by
  show mapE _ (a :: as) = _
  simp only [mapE, h1]
  rw [show Except.map (updateFeat a) (Except.ok lab) = Except.ok (updateFeat a lab) from rfl]
  rw [show mapE (fun f => (pick_geo_name f.props).map (updateFeat f)) as
        = Except.error e from h2]

theorem load_geojson_cons_ok_ok {γ : Type} {a : Feature γ} {as fs : List (Feature γ)}
    {lab : PyStr} (h1 : pick_geo_name a.props = .ok lab)
    (h2 : load_geojson as = .ok fs) :
    load_geojson (a :: as) = .ok (updateFeat a lab :: fs) := by
  show mapE _ (a :: as) = _
  simp only [mapE, h1]
  rw [show Except.map (updateFeat a) (Except.ok lab) = Except.ok (updateFeat a lab) from rfl]
  rw [show mapE (fun f => (pick_geo_name f.props).map (updateFeat f)) as
        = Except.ok fs from h2]

theorem load_geojson_error {γ : Type} (feats : List (Feature γ)) (x : Feature γ)
    (hx : x ∈ feats) (hbad : ∀ k ∈ DISTRICT_KEYS, x.props.lookup k = none) :
    load_geojson feats = .error noKeyMsg := by
  induction feats with
  | nil => cases hx
  | cons a as ih =>
      rcases List.mem_cons.mp hx with rfl | hx'
      · exact load_geojson_cons_err (pickFrom_error_of_none _ _ hbad)
      · cases hpick : pick_geo_name a.props with
        | error e =>
            have he : e = noKeyMsg := pickFrom_error_msg _ _ _ hpick
            exact he ▸ load_geojson_cons_err hpick
        | ok lab =>
            exact load_geojson_cons_ok_err hpick (ih hx')

/-! ### Helper lemmas about the case loader and merger -/

theorem computeIncidence_fields (r : Row) :
    (computeIncidence r).year = r.year ∧ (computeIncidence r).month = r.month ∧
      (computeIncidence r).district = r.district ∧ (computeIncidence r).cases = r.cases ∧
      (computeIncidence r).population = r.population := by
  unfold computeIncidence
  split <;> exact ⟨rfl, rfl, rfl, rfl, rfl⟩

theorem metricsFor_eq_none {mdf : List Row} {k : PyStr}
    (h : ∀ r ∈ mdf, norm r.district ≠ k) : metricsFor mdf k = none := by
  unfold metricsFor
  rw [List.find?_eq_none]
  intro r hr
  simpa using h r hr

theorem quantile95_all_missing {l : List PFloat} (h : l.filter PFloat.notna = []) :
    quantile95 l = PFloat.na := by
  unfold quantile95
  rw [h]
  rfl

/-! ### Concrete fixtures used by witnesses and counterexamples -/

/-- A case row whose population is zero, cases positive, incidence blank. -/
def rowPopZero : Row :=
  { year := some 2024, month := some 1, district := pyStr "Colombo",
    cases := .val 100, population := .val 0, incidence := .na }

/-- A case row with explicit cases and population and a blank incidence. -/
def rowBlankInc : Row :=
  { year := some 2024, month := some 1, district := pyStr "Colombo",
    cases := .val 3, population := .val 2, incidence := .na }

/-- A case row carrying an explicit incidence value inconsistent with its
cases and population. -/
def rowExplicitInc : Row :=
  { year := some 2024, month := some 1, district := pyStr "Colombo",
    cases := .val 3, population := .val 2, incidence := .val 7 }

/-- A raw geo feature carrying both `shapeName` and a conflicting
`district` property. -/
def featRaw : Feature Nat :=
  { props := [(pyStr "shapeName", pyStr "Colombo District"),
              (pyStr "district", pyStr "OLD")], geometry := 7 }

/-- The same feature after the loader's property update. -/
def featLoaded : Feature Nat := updateFeat featRaw (pyStr "Colombo District")

/-- A feature with no recognized label key at all. -/
def featNoKeys : Feature Nat :=
  { props := [(pyStr "foo", pyStr "bar")], geometry := 3 }

/-- A case row whose cases, population and incidence are all missing, so
its derived incidence stays missing. -/
def rowAllMissing : Row :=
  { year := some 2024, month := some 1, district := pyStr "Colombo",
    cases := .na, population := .na, incidence := .na }

/-! ### Claim theorems -/

/-- C1: refuted by the code (code bug).  For a row with cases = 100,
population = 0 and a blank incidence cell, the loaders compute
`100 / 0 * 1e5 = +inf`; infinity passes the `pd.notna` test and flows into
the merged per-district record as a present (non-missing) incidence value,
contradicting the requirement that a zero population always yields an
explicit missing value and that no computed infinity reaches display. -/
theorem c1_zero_population_infinity_leaks :
    (computeIncidence rowPopZero).incidence = PFloat.inf ∧
    PFloat.notna (computeIncidence rowPopZero).incidence = true ∧
    mergeMonth [featLoaded] [rowPopZero] 2024 1
      = .ok [{ districtNorm := pyStr "colombo", district := pyStr "Colombo District",
               incidence := some PFloat.inf, cases := some (PFloat.val 100),
               population := some (PFloat.val 0), geometry := 7 }] := by decide

/-- C2 counterexample: the normalizer is not idempotent.  On the string
"dist rict" the space removal manufactures a fresh occurrence of
"district", which a second application then removes. -/
theorem c2_norm_not_idempotent_cex :
    norm (norm (pyStr "dist rict")) ≠ norm (pyStr "dist rict") := by decide

/-- C2 amended: the normalizer is idempotent on every string whose
normalized form does not contain "district" as a substring (the only way a
normalized form can still contain it is that an earlier removal or the
space removal manufactured it). -/
theorem c2_norm_idempotent_amended (s : PyStr)
    (h : containsSub districtPat (norm s) = false) :
    norm (norm s) = norm s := by
  have hmem : ∀ a ∈ norm s, a ∈ pyLower s := by
    intro a ha
    exact mem_removeSub (mem_removeSub (mem_pyStrip ha))
  have hlower : pyLower (norm s) = norm s :=
    pyLower_eq_self (fun c hc => mem_pyLower_not_upper (hmem c hc))
  have h32 : (32 : Nat) ∉ norm s := by
    intro h32
    have hmem2 := mem_pyStrip h32
    have h1 : (32 : Nat) ∉ removeSub (pyStr " ") (removeSub districtPat (pyLower s)) := by
      rw [show pyStr " " = [32] by decide]
      exact not_mem_removeSub_single 32 _
    exact h1 hmem2
  have hsp : removeSub (pyStr " ") (norm s) = norm s := by
    rw [show pyStr " " = [32] by decide]
    exact removeSub_eq_self (containsSub_single_eq_false h32)
  have hstrip : pyStrip (norm s) = norm s := pyStrip_idempotent _
  calc norm (norm s)
      = pyStrip (removeSub (pyStr " ") (removeSub districtPat (pyLower (norm s)))) := rfl
    _ = pyStrip (removeSub (pyStr " ") (removeSub districtPat (norm s))) := by rw [hlower]
    _ = pyStrip (removeSub (pyStr " ") (norm s)) := by rw [removeSub_eq_self h]
    _ = pyStrip (norm s) := by rw [hsp]
    _ = norm s := hstrip

/-- C2 witness: a concrete string on which the amended idempotence applies. -/
theorem c2_norm_idempotent_amended_witness :
    containsSub districtPat (norm (pyStr "Colombo District")) = false ∧
    norm (norm (pyStr "Colombo District")) = norm (pyStr "Colombo District") :=
  ⟨by decide, c2_norm_idempotent_amended _ (by decide)⟩

/-- The normalizer exactly as the C7 spec sentence words it: lower-case,
every occurrence of "district" removed, ALL whitespace removed, and
leading/trailing whitespace trimmed. -/
def normSpecC7 (s : PyStr) : PyStr :=
  pyStrip ((removeSub districtPat (pyLower s)).filter (fun c => !isSpaceC c))

/-- C7 counterexample: on "a\tb" the code keeps the interior tab because
`replace(" ", "")` removes only the space character U+0020, while the
claimed description removes all whitespace. -/
theorem c7_norm_whitespace_cex :
    norm (pyStr "a\tb") ≠ normSpecC7 (pyStr "a\tb") ∧
    norm (pyStr "a\tb") = pyStr "a\tb" ∧
    normSpecC7 (pyStr "a\tb") = pyStr "ab" := by decide

/-- The amended description of the normalizer: only the space character
U+0020 is removed from the interior, other whitespace survives unless
trimmed from the ends. -/
def normSpecC7Amended (s : PyStr) : PyStr :=
  pyStrip ((removeSub districtPat (pyLower s)).filter (fun c => c != 32))

/-- C7 amended: the normalizer is total and equals lower-casing, then
single-pass removal of every occurrence of "district", then removal of
every space character U+0020 (not all whitespace), then trimming of
leading/trailing whitespace; a missing or empty input yields the empty
key. -/
theorem c7_norm_characterization_amended :
    (∀ s : PyStr, norm s = normSpecC7Amended s) ∧
    normOpt none = [] ∧ normOpt (some []) = [] := by
  refine ⟨fun s => ?_, rfl, rfl⟩
  show pyStrip (removeSub (pyStr " ") (removeSub districtPat (pyLower s)))
      = pyStrip ((removeSub districtPat (pyLower s)).filter (fun c => c != 32))
  rw [show pyStr " " = [32] by decide, removeSub_single_eq_filter]

/-- C3 counterexample, both cited code paths.  In the dashboard
(app/main.py) a dataset holding a single explicit zero incidence value has
a 95th percentile of 0, so the computed upper bound is 0: not strictly
positive.  In the static exporter (app/build_map.py) the fallback guard
tests `mdf.empty`, not value validity, so a nonempty month slice whose
incidence values are all missing gets `quantile(0.95) = NaN` as its bound
instead of the fixed positive default. -/
theorem c3_vmax_not_positive_cex :
    (vmaxMetric [PFloat.val 0] = PFloat.val 0 ∧
     PFloat.pos (vmaxMetric [PFloat.val 0]) = false) ∧
    (buildMapComputedVmax [rowAllMissing] = PFloat.na ∧
     PFloat.pos (buildMapComputedVmax [rowAllMissing]) = false) := by decide

/-- C3 amended.  In the dashboard (app/main.py) the bound is the fixed
default 1.0 exactly when the metric column has no non-missing values, and
is then strictly positive; with non-missing values present the bound is
their 95th percentile, which need not be positive.  In the static exporter
(app/build_map.py) the default applies only to an empty month slice; a
nonempty slice with zero non-missing metric values yields a NaN bound,
not the fixed default. -/
theorem c3_vmax_default_positive_amended :
    (∀ vals : List PFloat, vals.filter PFloat.notna = [] →
        vmaxMetric vals = PFloat.val 1 ∧ PFloat.pos (vmaxMetric vals) = true) ∧
    (buildMapComputedVmax [] = PFloat.val 1 ∧
     PFloat.pos (buildMapComputedVmax []) = true) ∧
    (∀ mdf : List Row, mdf ≠ [] →
        (mdf.map Row.incidence).filter PFloat.notna = [] →
        buildMapComputedVmax mdf = PFloat.na ∧
        PFloat.pos (buildMapComputedVmax mdf) = false) := by
  refine ⟨fun vals h => ?_, by decide, fun mdf hne hna => ?_⟩
  · have hv : vmaxMetric vals = PFloat.val 1 := by
      unfold vmaxMetric
      rw [h]
      rfl
    exact ⟨hv, by rw [hv]; rfl⟩
  · have hbm : buildMapComputedVmax mdf = PFloat.na := by
      unfold buildMapComputedVmax
      cases mdf with
      | nil => exact absurd rfl hne
      | cons r rs =>
          show quantile95 ((r :: rs).map Row.incidence) = PFloat.na
          exact quantile95_all_missing hna
    exact ⟨hbm, by rw [hbm]; rfl⟩

/-- C3 witness: an all-missing metric column takes the dashboard default;
a nonempty all-missing month slice gets a NaN bound in the exporter. -/
theorem c3_vmax_default_positive_amended_witness :
    ([PFloat.na].filter PFloat.notna = [] ∧
     vmaxMetric [PFloat.na] = PFloat.val 1 ∧
     PFloat.pos (vmaxMetric [PFloat.na]) = true) ∧
    (([rowAllMissing] : List Row) ≠ [] ∧
     ([rowAllMissing].map Row.incidence).filter PFloat.notna = [] ∧
     buildMapComputedVmax [rowAllMissing] = PFloat.na ∧
     PFloat.pos (buildMapComputedVmax [rowAllMissing]) = false) :=
  ⟨⟨by decide, c3_vmax_default_positive_amended.1 [PFloat.na] (by decide)⟩,
   ⟨by decide, by decide,
    c3_vmax_default_positive_amended.2.2 [rowAllMissing] (by decide) (by decide)⟩⟩

/-- C4: incidence is derived only for rows whose incidence cell is missing
or absent; a row carrying an explicit incidence value is preserved exactly
as it was, and for a missing cell with explicit cases and positive
population the derived value equals cases / population * 100000. -/
theorem c4_incidence_derivation (r : Row) :
    (PFloat.notna r.incidence = true → computeIncidence r = r) ∧
    (PFloat.notna r.incidence = false →
      (computeIncidence r).incidence = (r.cases.pdiv r.population).mul1e5) ∧
    (∀ c p : ℚ, r.cases = .val c → r.population = .val p → 0 < p →
      PFloat.notna r.incidence = false →
      (computeIncidence r).incidence = .val (c / p * 100000)) := by
  refine ⟨?_, ?_, ?_⟩
  · intro h
    unfold computeIncidence
    rw [if_pos h]
  · intro h
    unfold computeIncidence
    rw [if_neg (by simp [h])]
  · intro c p hc hp hppos h
    have h2 : (computeIncidence r).incidence = (r.cases.pdiv r.population).mul1e5 := by
      unfold computeIncidence
      rw [if_neg (by simp [h])]
    rw [h2, hc, hp]
    simp only [PFloat.pdiv]
    rw [if_neg hppos.ne']
    rfl

/-- C4 witness: an explicit-incidence row survives unchanged; a blank row
gets the derived value. -/
theorem c4_incidence_derivation_witness :
    computeIncidence rowExplicitInc = rowExplicitInc ∧
    (computeIncidence rowBlankInc).incidence = PFloat.val (3 / 2 * 100000) :=
  ⟨(c4_incidence_derivation rowExplicitInc).1 (by decide),
   (c4_incidence_derivation rowBlankInc).2.2 3 2 (by decide) (by decide)
     (by decide) (by decide)⟩

/-- C9 counterexample: the caller-supplied override 0.0 is falsy in
`args.vmax or (...)`, so it is ignored and the computed fallback is used
instead of the supplied value. -/
theorem c9_override_zero_ignored_cex :
    buildMapVmax (some (PFloat.val 0)) [] = PFloat.val 1 ∧
    buildMapVmax (some (PFloat.val 0)) [] ≠ PFloat.val 0 := by decide

/-- C9 amended: a caller-supplied maximum takes precedence over the
computed percentile whenever it is truthy as a Python float, i.e. any
value other than 0.0; a supplied 0.0 silently falls back to the computed
value. -/
theorem c9_override_amended (v : PFloat) (mdf : List Row)
    (h : PFloat.truthy v = true) :
    buildMapVmax (some v) mdf = v := by
  simp only [buildMapVmax]
  rw [if_pos h]

/-- C9 witness: a nonzero override is used verbatim. -/
theorem c9_override_amended_witness :
    PFloat.truthy (PFloat.val 150) = true ∧
    buildMapVmax (some (PFloat.val 150)) [rowPopZero] = PFloat.val 150 :=
  ⟨by decide, c9_override_amended _ _ (by decide)⟩

/-- C5 counterexample: two case rows for the same district and month give
the month slice a duplicate normalized key; `to_dict(orient="index")`
requires a unique index (pandas 0.24+, and this code needs pandas 1.0+ for
`pd.NA`), so the program raises `ValueError` and the merge produces no
output at all — refuting "exactly one output entry per input geo feature
... regardless of how many case rows match". -/
theorem c5_duplicate_rows_abort_cex :
    mergeMonth [featLoaded] [rowBlankInc, rowExplicitInc] 2024 1
      = .error uniqueIdxMsg := by decide

/-- C5 amended: for every feature sequence (well-formed as the loader
produces it, with a `_district_norm` property on every feature), every
case row collection and every target month whose slice has at most one row
per normalized key (a unique index), the merge succeeds and yields exactly
one output record per input feature, in input order; when two matching
rows share a normalized key the program instead raises `ValueError` in
`to_dict("index")` and produces no output. -/
theorem c5_merge_one_per_feature_amended {γ : Type} (feats : List (Feature γ))
    (rows : List Row) (y m : Int)
    (hU : hasDupKeys ((load_month rows y m).map (fun (r : Row) => norm r.district))
        = false)
    (_hwf : ∀ f ∈ feats, (f.props.lookup (pyStr "_district_norm")).isSome = true) :
    ∃ out : List (MergedView γ),
      mergeMonth feats rows y m = .ok out ∧
      out.length = feats.length ∧
      out.map MergedView.districtNorm
        = feats.map (fun f => (f.props.lookup (pyStr "_district_norm")).getD []) := by
  refine ⟨feats.map (mergeOne (load_month rows y m)), ?_, by simp, ?_⟩
  · simp [mergeMonth, attach_static_metrics, hU]
  · simp only [List.map_map]
    rfl

/-- C5 witness: one feature, one matching row, unique index. -/
theorem c5_merge_one_per_feature_amended_witness :
    (hasDupKeys ((load_month [rowPopZero] 2024 1).map (fun (r : Row) => norm r.district))
        = false) ∧
    ∃ out : List (MergedView Nat),
      mergeMonth [featLoaded] [rowPopZero] 2024 1 = .ok out ∧
      out.length = [featLoaded].length ∧
      out.map MergedView.districtNorm
        = [featLoaded].map (fun f => (f.props.lookup (pyStr "_district_norm")).getD []) :=
  ⟨by decide, c5_merge_one_per_feature_amended [featLoaded] [rowPopZero] 2024 1
      (by decide) (by decide)⟩

/-- C6: whenever the month slice's normalized keys are unique (so the
merge runs at all instead of raising in `to_dict("index")`), a feature
whose normalized key matches no case row of the requested month comes out
of the merge with missing incidence, missing cases and missing population,
never a zero-valued entry. -/
theorem c6_unmatched_district_no_data {γ : Type} (feats : List (Feature γ))
    (rows : List Row) (y m : Int) (i : Nat) (hi : i < feats.length)
    (hU : hasDupKeys ((load_month rows y m).map (fun (r : Row) => norm r.district))
        = false)
    (hno : ∀ r ∈ rows, ¬(r.year = some y ∧ r.month = some m ∧
        norm r.district
          = ((feats.get ⟨i, hi⟩).props.lookup (pyStr "_district_norm")).getD [])) :
    ∃ out : List (MergedView γ),
      mergeMonth feats rows y m = .ok out ∧
      ∃ hi2 : i < out.length,
        (out.get ⟨i, hi2⟩).incidence = none ∧
        (out.get ⟨i, hi2⟩).cases = none ∧
        (out.get ⟨i, hi2⟩).population = none := by
  refine ⟨feats.map (mergeOne (load_month rows y m)), ?_, ?_⟩
  · simp [mergeMonth, attach_static_metrics, hU]
  · have hlen : (feats.map (mergeOne (load_month rows y m))).length = feats.length := by
      simp
    refine ⟨by omega, ?_⟩
    have hget : (feats.map (mergeOne (load_month rows y m))).get ⟨i, by omega⟩
        = mergeOne (load_month rows y m) (feats.get ⟨i, hi⟩) := by
      simp
    rw [hget]
    have hnone : metricsFor (load_month rows y m)
        (((feats.get ⟨i, hi⟩).props.lookup (pyStr "_district_norm")).getD []) = none := by
      apply metricsFor_eq_none
      intro r' hr'
      have hmem := List.mem_filter.mp hr'
      rcases List.mem_map.mp hmem.1 with ⟨r, hrmem, rfl⟩
      have hflt := hmem.2
      simp only [decide_eq_true_eq] at hflt
      have hfields := computeIncidence_fields r
      intro heq
      exact hno r hrmem ⟨hfields.1 ▸ hflt.1, hfields.2.1 ▸ hflt.2,
        hfields.2.2.1 ▸ heq⟩
    simp only [List.get_eq_getElem] at hnone
    simp [mergeOne, hnone, keepCell]

/-- C6 witness: a lone feature against an empty case table. -/
theorem c6_unmatched_district_no_data_witness :
    ∃ out : List (MergedView Nat),
      mergeMonth [featLoaded] ([] : List Row) 2024 1 = .ok out ∧
      ∃ hi2 : 0 < out.length,
        (out.get ⟨0, hi2⟩).incidence = none ∧
        (out.get ⟨0, hi2⟩).cases = none ∧
        (out.get ⟨0, hi2⟩).population = none :=
  c6_unmatched_district_no_data [featLoaded] [] 2024 1 0 (by decide) (by decide)
    (fun r hr => absurd hr (List.not_mem_nil r))

/-- C8: a feature whose property bag holds none of the five recognized
label keys makes the whole geo load fail with the "no usable name" error
(no silent skipping), and when keys are present the label picked is the
value of the first present key in the fixed preference order. -/
theorem c8_missing_name_key {γ : Type} (feats : List (Feature γ)) (f : Feature γ)
    (hf : f ∈ feats) :
    ((∀ k ∈ DISTRICT_KEYS, f.props.lookup k = none) →
        load_geojson feats = .error noKeyMsg) ∧
    (∀ (i : Nat) (hi : i < DISTRICT_KEYS.length) (v : PyStr),
        (∀ (j : Nat) (hj : j < i),
            f.props.lookup (DISTRICT_KEYS.get ⟨j, Nat.lt_trans hj hi⟩) = none) →
        f.props.lookup (DISTRICT_KEYS.get ⟨i, hi⟩) = some v →
        pick_geo_name f.props = .ok v) :=
  ⟨fun hbad => load_geojson_error feats f hf hbad,
   fun i hi v hb hv => pickFrom_first DISTRICT_KEYS f.props i hi v hb hv⟩

/-- C8 witness: a key-less feature aborts the load; a feature carrying
`shapeName` (the first preference) yields its value. -/
theorem c8_missing_name_key_witness :
    load_geojson [featNoKeys, featRaw] = .error noKeyMsg ∧
    pick_geo_name featRaw.props = .ok (pyStr "Colombo District") :=
  ⟨(c8_missing_name_key [featNoKeys, featRaw] featNoKeys (by decide)).1 (by decide),
   (c8_missing_name_key [featNoKeys, featRaw] featRaw (by decide)).2 0 (by decide)
     (pyStr "Colombo District") (fun j hj => absurd hj (by omega)) (by decide)⟩

/-- C10: the loader's per-feature property update sets the `district`
property to the picked label (discarding any previous value), attaches
`_district_norm` as the normalized label, and leaves the geometry
untouched; the per-month merge also passes the geometry through
unchanged. -/
theorem c10_district_overwrite_geometry_frame {γ : Type} (f : Feature γ)
    (label : PyStr) (_h : pick_geo_name f.props = .ok label) :
    (updateFeat f label).props.lookup (pyStr "district") = some label ∧
    (updateFeat f label).props.lookup (pyStr "_district_norm") = some (norm label) ∧
    (updateFeat f label).geometry = f.geometry ∧
    (∀ mdf : List Row, (mergeOne mdf (updateFeat f label)).geometry = f.geometry) :=
  ⟨rfl, rfl, rfl, fun _ => rfl⟩

/-- C10 witness: the feature carrying both `shapeName` and a `district`
property loses its original `district` value. -/
theorem c10_district_overwrite_geometry_frame_witness :
    pick_geo_name featRaw.props = .ok (pyStr "Colombo District") ∧
    featLoaded.props.lookup (pyStr "district") = some (pyStr "Colombo District") ∧
    featLoaded.props.lookup (pyStr "_district_norm")
      = some (norm (pyStr "Colombo District")) ∧
    featLoaded.geometry = featRaw.geometry ∧
    (mergeOne [rowPopZero] featLoaded).geometry = featRaw.geometry := by
  have h := c10_district_overwrite_geometry_frame featRaw (pyStr "Colombo District")
    (by decide)
  exact ⟨by decide, h.1, h.2.1, h.2.2.1, h.2.2.2 [rowPopZero]⟩
